import Mathlib

/-
Verification of the performance scheduler and audio-synthesis engine of a
sheet-music-to-performance web application.  The development shallowly embeds:

* the data model (`src/types.ts`),
* the pitch resolver `AudioEngine.getFrequency` and the vocal playback
  adapter `AudioEngine.playVocalBuffer` (audio engine source file),
* the measure arranger `playMeasure`, the playback-scheduling effect, and the
  tempo buttons (`src/App.tsx`).

Real-number semantics is used for frequencies (the source computes with JS
doubles via `Math.pow`; we verify the exact-real arithmetic the formulas
denote).  Times and durations are embedded as rationals, making every
scheduling computation executable and decidable.
-/

namespace FastScan

/-! ## Data model, from `src/types.ts` -/

/-- Embeds `interface Note` of `src/types.ts`: a pitch name, a duration in
beats, and optional lyrics. -/
structure Note where
  pitch : String
  duration : ℚ
  lyrics : Option String := none
  deriving DecidableEq

/-- Embeds `interface Measure` of `src/types.ts`. -/
structure Measure where
  chords : List String
  melody : List Note
  drumGroove : Option String := none
  deriving DecidableEq

/-- Embeds `interface ScoreData` of `src/types.ts`. -/
structure ScoreData where
  title : String
  tempo : ℚ
  timeSignature : String
  keySignature : String
  measures : List Measure
  deriving DecidableEq

/-- Embeds `enum InstrumentType` of `src/types.ts`. -/
inductive InstrumentType where
  | piano | guitar | bass | drums | maleVocal | femaleVocal
  deriving DecidableEq

/-! ## Pitch resolver, from `AudioEngine.getFrequency`

The source matches `pitch` against the regular expression
`/([A-G][#b]?)([0-9])/` (leftmost match, greedy optional accidental with
backtracking), looks the matched note name up in the `notes` record, and
returns `440 * Math.pow(2, semitones / 12)` where
`semitones = notes[note] + (octave - 4) * 12`.  A name missing from the
record (`"Cb"`, `"Fb"`, `"E#"`, `"B#"`) makes `notes[note]` `undefined`, so
the arithmetic yields `NaN`; we embed the result as `Option ℝ` with `none`
for `NaN`. -/

/-- Character class `[A-G]` of the source regex (char codes 65–71). -/
def isNoteLetter (c : Char) : Bool := 65 ≤ c.toNat && c.toNat ≤ 71

/-- Character class `[#b]` of the source regex. -/
def isAccidental (c : Char) : Bool := c = '#' || c = 'b'

/-- Character class `[0-9]` of the source regex (char codes 48–57). -/
def isDigitChar (c : Char) : Bool := 48 ≤ c.toNat && c.toNat ≤ 57

/-- Attempt to match `([A-G][#b]?)([0-9])` at the head of the character list,
with the regex engine's greedy-then-backtrack treatment of `[#b]?`.  Returns
the matched note name and the octave digit's numeric value
(`parseInt(match[2])`). -/
def matchAt : List Char → Option (String × ℕ)
  | c :: rest =>
    if isNoteLetter c then
      match rest with
      | a :: d :: _ =>
        if isAccidental a && isDigitChar d then some (String.mk [c, a], d.toNat - 48)
        else if isDigitChar a then some (String.mk [c], a.toNat - 48)
        else none
      | [a] => if isDigitChar a then some (String.mk [c], a.toNat - 48) else none
      | [] => none
    else none
  | [] => none

/-- Leftmost match of `([A-G][#b]?)([0-9])`, as `pitch.match(...)` finds it:
try each start position from the left. -/
def findMatch : List Char → Option (String × ℕ)
  | [] => none
  | c :: rest =>
    match matchAt (c :: rest) with
    | some r => some r
    | none => findMatch rest

/-- The `notes` record of `AudioEngine.getFrequency`, embedding the JS object
lookup `notes[note]` (`none` for a key that is absent, i.e. `undefined`). -/
def notes (s : String) : Option ℤ :=
  if s = "C" then some 0 else if s = "C#" then some 1 else if s = "Db" then some 1
  else if s = "D" then some 2 else if s = "D#" then some 3 else if s = "Eb" then some 3
  else if s = "E" then some 4 else if s = "F" then some 5 else if s = "F#" then some 6
  else if s = "Gb" then some 6 else if s = "G" then some 7 else if s = "G#" then some 8
  else if s = "Ab" then some 8 else if s = "A" then some 9 else if s = "A#" then some 10
  else if s = "Bb" then some 10 else if s = "B" then some 11 else none

/-- The exact real value `440 * 2 ^ (k / 12)` that the source's
`440 * Math.pow(2, semitones / 12)` denotes for semitone count `k`. -/
noncomputable def freqOfSemis (k : ℤ) : ℝ := 440 * (2 : ℝ) ^ ((k : ℝ) / 12)

/-- Embeds `AudioEngine.getFrequency`: no regex match returns `440`; a match
resolves the note name through `notes` and returns
`440 * 2 ^ ((notes[note] + (octave - 4) * 12) / 12)`; an absent record key
produces `NaN`, embedded as `none`. -/
noncomputable def getFrequency (pitch : String) : Option ℝ :=
  match findMatch pitch.data with
  | none => some 440
  | some m => (notes m.1).map fun o => freqOfSemis (o + ((m.2 : ℤ) - 4) * 12)

/-- Modelled from the spec: the pitch-resolver contract of spec section 4.1,
which subtracts the A4 reference offset 9 —
`semitonesFromA4 = (offset - 9) + (octave - 4) * 12`, returning
`440 * 2 ^ (semitonesFromA4 / 12)` — where the source omits the `- 9`. -/
noncomputable def frequencyOfSpec (pitch : String) : Option ℝ :=
  match findMatch pitch.data with
  | none => some 440
  | some m => (notes m.1).map fun o => freqOfSemis (o - 9 + ((m.2 : ℤ) - 4) * 12)

/-- Position-wise form of the pattern "letter A–G, optional `#` or `b`, then
a digit" used to phrase unparseability: does the pattern match at the head? -/
def tokenAt : List Char → Bool
  | c :: a :: d :: _ => isNoteLetter c && ((isAccidental a && isDigitChar d) || isDigitChar a)
  | [c, a] => isNoteLetter c && isDigitChar a
  | _ => false

/-- Does the string contain, at any position, a substring matching
letter A–G, optional `#` or `b`, then a digit? -/
def containsToken : List Char → Bool
  | [] => false
  | c :: rest => tokenAt (c :: rest) || containsToken rest

/-! ## Scheduled sound events and the measure arranger, from `App.playMeasure`

`playMeasure` issues `audioEngine.playNote` / `audioEngine.playDrum` /
`audioEngine.playVocalBuffer` calls; we embed each call as an `Event` and the
arranger as the list of events in issue order. -/

/-- The three percussion voices of `AudioEngine.playDrum`. -/
inductive DrumVoice where
  | kick | snare | hihat
  deriving DecidableEq

/-- One scheduling call issued by `playMeasure`: a `playNote` call (pitch,
duration in seconds, instrument, absolute start time), a `playDrum` call, or
a `playVocalBuffer` call. -/
inductive Event where
  | note (pitch : String) (duration : ℚ) (inst : InstrumentType) (start : ℚ)
  | drum (voice : DrumVoice) (start : ℚ)
  | vocal (payload : String) (start : ℚ)
  deriving DecidableEq

/-- Absolute start time of an event. -/
def eventStart : Event → ℚ
  | .note _ _ _ s => s
  | .drum _ s => s
  | .vocal _ s => s

/-- Scheduled duration of a tone event (percussion and vocal events carry no
duration argument in the source). -/
def eventDur : Event → ℚ
  | .note _ d _ _ => d
  | _ => 0

/-- The melody walk of `playMeasure`: `let offset = 0; melody.forEach(note =>
playNote(note.pitch, note.duration * beatDuration, inst, startTime + offset);
offset += note.duration * beatDuration)`. -/
def melodyLoop (melody : List Note) (inst : InstrumentType) (bd startTime offset : ℚ) :
    List Event :=
  match melody with
  | [] => []
  | n :: rest =>
    Event.note n.pitch (n.duration * bd) inst (startTime + offset) ::
      melodyLoop rest inst bd startTime (offset + n.duration * bd)

/-- The bass walk of `playMeasure`: `chords.forEach((chord, i) =>
playNote(chord.charAt(0) + "2", chordDuration, BASS, startTime + i *
chordDuration))`.  `chord.charAt(0)` is the first character (the empty string
for an empty chord name). -/
def bassLoop (chords : List String) (chordDuration startTime : ℚ) (i : ℕ) : List Event :=
  match chords with
  | [] => []
  | c :: rest =>
    Event.note (String.mk (c.data.take 1) ++ "2") chordDuration InstrumentType.bass
        (startTime + (i : ℚ) * chordDuration) ::
      bassLoop rest chordDuration startTime (i + 1)

/-- The bass section of `playMeasure`, with
`chordDuration = (4 * beatDuration) / chords.length`. -/
def bassEvents (chords : List String) (bd startTime : ℚ) : List Event :=
  bassLoop chords ((4 * bd) / (chords.length : ℚ)) startTime 0

/-- The drum section of `playMeasure`: `for (i = 0; i < 4; i++)` schedule a
hi-hat at `i * bd` and at `i * bd + 0.5 * bd`, a kick when `i` is 0 or 2, and
a snare when `i` is 1 or 3. -/
def drumEvents (bd startTime : ℚ) : List Event :=
  (List.range 4).flatMap fun i =>
    [Event.drum DrumVoice.hihat (startTime + (i : ℚ) * bd),
     Event.drum DrumVoice.hihat (startTime + (i : ℚ) * bd + (0.5 : ℚ) * bd)]
    ++ (if i = 0 || i = 2 then [Event.drum DrumVoice.kick (startTime + (i : ℚ) * bd)] else [])
    ++ (if i = 1 || i = 3 then [Event.drum DrumVoice.snare (startTime + (i : ℚ) * bd)] else [])

/-- Embeds `playMeasure(index, startTime)` of `src/App.tsx` for the measure
`measure`, the current tempo, selected-instrument set (`sel i = true` iff
`selectedInstruments.has(i)`), and the vocal payload `vocalAudioMap[index]`
(`none` when the key is absent; the source's truthiness test also rejects the
empty string).  `beatDuration = 60 / tempo`. -/
def playMeasure (measure : Measure) (tempo : ℚ) (sel : InstrumentType → Bool)
    (vocal : Option String) (startTime : ℚ) : List Event :=
  let beatDuration := 60 / tempo
  (if sel InstrumentType.piano || sel InstrumentType.guitar then
    melodyLoop measure.melody
      (if sel InstrumentType.piano then InstrumentType.piano else InstrumentType.guitar)
      beatDuration startTime 0
  else []) ++
  (if sel InstrumentType.bass && decide (0 < measure.chords.length) then
    bassEvents measure.chords beatDuration startTime
  else []) ++
  (if sel InstrumentType.drums then drumEvents beatDuration startTime else []) ++
  (match vocal with
   | some p =>
     if !p.isEmpty && (sel InstrumentType.maleVocal || sel InstrumentType.femaleVocal) then
       [Event.vocal p startTime]
     else []
   | none => [])

/-- Is the event a tone on the melody track (piano or guitar)? -/
def isMelodyTone : Event → Bool
  | .note _ _ InstrumentType.piano _ => true
  | .note _ _ InstrumentType.guitar _ => true
  | _ => false

/-- Is the event a tone on the bass track? -/
def isBassTone : Event → Bool
  | .note _ _ InstrumentType.bass _ => true
  | _ => false

/-- Is the event a percussion hit of the given voice? -/
def isDrumVoice (v : DrumVoice) : Event → Bool
  | .drum w _ => decide (w = v)
  | _ => false

/-- Is the event any percussion hit? -/
def isDrumHit : Event → Bool
  | .drum _ _ => true
  | _ => false

/-- The melody-track tones among the arranger's events. -/
def melodyTones (evs : List Event) : List Event := evs.filter isMelodyTone

/-- The bass-track tones among the arranger's events. -/
def bassTones (evs : List Event) : List Event := evs.filter isBassTone

/-! ## Performance scheduler, from the playback `useEffect` of `src/App.tsx`

The component state relevant to playback is `isPlaying`, `tempo`,
`currentMeasureIndex`, `selectedInstruments`, the ref
`measureStartTimeRef`, and the pending `setTimeout` advance timer.  The
effect has dependency array `[isPlaying, currentMeasureIndex, score, tempo,
playMeasure]` (and `playMeasure` is a `useCallback` over `[score, tempo,
selectedInstruments, vocalAudioMap]`), so any change to one of those runs
the cleanup (`clearTimeout` of the pending timer) and then the effect body
again.  `effectRun` embeds one such cleanup-plus-body execution;
`timerFire` embeds the `setTimeout` callback; `setTempoUser` embeds a
`setTempo` state update. -/

/-- Playback-relevant component state of `App`.  `armed` is the pending
advance timer's duration (`measureDuration * 1000` ms in the source, held
here in seconds), `none` when no timer is pending. -/
structure SchedState where
  isPlaying : Bool
  tempo : ℚ
  currentMeasureIndex : ℕ
  measureStartTime : ℚ
  armed : Option ℚ
  selected : InstrumentType → Bool

/-- One run of the playback effect (after its cleanup cancelled any pending
timer): when playing, compute `beatDuration = 60 / tempo` and
`measureDuration = 4 * beatDuration` from the CURRENT tempo, set the start
anchor to `now + 0.1` if it is zero, issue `playMeasure(currentMeasureIndex,
anchor)`, and arm the advance timer for `measureDuration`; when stopped,
leave no timer armed and issue nothing.  `vocalMap` embeds
`vocalAudioMap`; an out-of-range measure index (never reached from the
initial state) is embedded as issuing no events. -/
def effectRun (score : ScoreData) (vocalMap : ℕ → Option String) (now : ℚ)
    (s : SchedState) : SchedState × List Event :=
  if s.isPlaying then
    let beatDuration := 60 / s.tempo
    let measureDuration := 4 * beatDuration
    let anchor := if s.measureStartTime = 0 then now + (0.1 : ℚ) else s.measureStartTime
    let evs :=
      match score.measures[s.currentMeasureIndex]? with
      | some m => playMeasure m s.tempo s.selected (vocalMap s.currentMeasureIndex) anchor
      | none => []
    ({ s with measureStartTime := anchor, armed := some measureDuration }, evs)
  else
    ({ s with armed := none }, [])

/-- The advance timer's callback: advance the start anchor by the armed
measure duration, then advance the measure index; past the last measure,
stop playing and reset the index to 0.  With no timer pending nothing
fires. -/
def timerFire (score : ScoreData) (s : SchedState) : SchedState :=
  match s.armed with
  | none => s
  | some md =>
    let s1 := { s with measureStartTime := s.measureStartTime + md, armed := none }
    if s1.currentMeasureIndex + 1 ≥ score.measures.length then
      { s1 with isPlaying := false, currentMeasureIndex := 0 }
    else
      { s1 with currentMeasureIndex := s1.currentMeasureIndex + 1 }

/-- A user tempo change: `setTempo` updates the state; the playback effect
then re-runs because `tempo` is in its dependency array. -/
def setTempoUser (t : ℚ) (s : SchedState) : SchedState := { s with tempo := t }

/-! ## Tempo buttons, from the BPM controls of `src/App.tsx` -/

/-- The minus button: `setTempo(t => Math.max(40, t - 5))`. -/
def tempoDecrement (t : ℚ) : ℚ := max 40 (t - 5)

/-- The plus button: `setTempo(t => Math.min(240, t + 5))`. -/
def tempoIncrement (t : ℚ) : ℚ := min 240 (t + 5)

/-- A sequence of button presses applied in order (`true` = plus,
`false` = minus). -/
def applyTempoOps (t : ℚ) (ops : List Bool) : ℚ :=
  ops.foldl (fun acc op => if op then tempoIncrement acc else tempoDecrement acc) t

/-! ## Vocal playback adapter, from `AudioEngine.playVocalBuffer`

The source calls the browser's `atob` on the payload OUTSIDE its
`try`/`catch`, then awaits `ctx.decodeAudioData` inside the `try`; a decode
failure is caught and logged (`console.warn`), while an `atob` failure
escapes and rejects the async call.  `decodeAudioData` is an opaque browser
codec, embedded as a caller-supplied predicate on the decoded bytes. -/

/-- ASCII whitespace stripped by the browser's forgiving-base64 decoder. -/
def isBase64Whitespace (c : Char) : Bool :=
  c = ' ' || c = '\t' || c = '\n' || c = '\x0d' || c = '\x0c'

/-- Value of one base64 alphabet character; `none` for a character outside
the alphabet. -/
def base64Val (c : Char) : Option ℕ :=
  if 65 ≤ c.toNat && c.toNat ≤ 90 then some (c.toNat - 65)
  else if 97 ≤ c.toNat && c.toNat ≤ 122 then some (c.toNat - 97 + 26)
  else if 48 ≤ c.toNat && c.toNat ≤ 57 then some (c.toNat - 48 + 52)
  else if c = '+' then some 62
  else if c = '/' then some 63
  else none

/-- Strip up to two trailing `=` padding characters. -/
def stripBase64Padding (cs : List Char) : List Char :=
  match cs.reverse with
  | '=' :: '=' :: rest => rest.reverse
  | '=' :: rest => rest.reverse
  | _ => cs

/-- Reassemble 6-bit values into bytes (4 values to 3 bytes; a final pair to
one byte, a final triple to two). -/
def base64Assemble : List ℕ → List ℕ
  | a :: b :: c :: d :: rest =>
    (a * 4 + b / 16) :: ((b % 16) * 16 + c / 4) :: ((c % 4) * 64 + d) :: base64Assemble rest
  | [a, b] => [a * 4 + b / 16]
  | [a, b, c] => [a * 4 + b / 16, (b % 16) * 16 + c / 4]
  | _ => []

/-- Modelled from the spec: the browser's `atob` (forgiving-base64 decode),
which is a platform builtin, not repository code.  Whitespace is removed,
then up to two trailing `=` are stripped when the length is a multiple of 4;
a remaining length of 1 mod 4 or any character outside the base64 alphabet
throws (`none`); otherwise the bytes are assembled. -/
def atobModel (s : String) : Option (List ℕ) :=
  let cs := s.data.filter (fun c => !isBase64Whitespace c)
  let cs := if cs.length % 4 = 0 then stripBase64Padding cs else cs
  if cs.length % 4 = 1 then none
  else (cs.mapM base64Val).map base64Assemble

/-- Observable outcome of a `playVocalBuffer` call that did not reject:
either a buffer scheduled at the requested start time, or the logged
"Could not decode vocal buffer." warning (silence). -/
inductive VocalOutcome where
  | scheduled (start : ℚ)
  | warned
  deriving DecidableEq

/-- Embeds `AudioEngine.playVocalBuffer`: `atob` runs outside the
`try`/`catch`, so its failure rejects the call (`Except.error`); a
`decodeAudioData` failure (the opaque codec `decodeOk` returning `false`)
is caught and degrades to the logged warning; success schedules the buffer
at `startTime`. -/
def playVocalBuffer (decodeOk : List ℕ → Bool) (base64 : String) (startTime : ℚ) :
    Except Unit VocalOutcome :=
  match atobModel base64 with
  | none => Except.error ()
  | some bytes =>
    if decodeOk bytes then Except.ok (VocalOutcome.scheduled startTime)
    else Except.ok VocalOutcome.warned

/-! ## Concrete inputs used by witnesses -/

/-- The spec's scenario melody: C4, E4 for one beat each, then G4 for two. -/
def exampleMelody : List Note :=
  [⟨"C4", 1, none⟩, ⟨"E4", 1, none⟩, ⟨"G4", 2, none⟩]

/-- A measure holding the scenario melody and two chords. -/
def exampleMeasure : Measure := ⟨["Cmaj7", "G7"], exampleMelody, none⟩

/-- The singleton instrument set containing the piano. -/
def selPiano : InstrumentType → Bool := fun i => decide (i = InstrumentType.piano)

/-- The singleton instrument set containing the bass. -/
def selBass : InstrumentType → Bool := fun i => decide (i = InstrumentType.bass)

/-- The singleton instrument set containing the drums. -/
def selDrums : InstrumentType → Bool := fun i => decide (i = InstrumentType.drums)

/-- A ten-measure score at 90 bpm, one copy of `exampleMeasure` per
measure. -/
def exampleScore : ScoreData :=
  ⟨"demo", 90, "4/4", "C", List.replicate 10 exampleMeasure⟩

/-- A vocal map with no entries. -/
def noVocals : ℕ → Option String := fun _ => none

/-- A playing state in which measure 2 of 10 (index 1) is armed at 90 bpm:
the advance timer holds the 90-bpm measure duration `4 * 60 / 90 = 8/3`
seconds and the measure's start anchor is 10 s. -/
def armedState : SchedState :=
  ⟨true, 90, 1, 10, some (8 / 3), selPiano⟩

/-- A four-measure score at 90 bpm. -/
def exampleScore4 : ScoreData :=
  ⟨"demo4", 90, "4/4", "C", List.replicate 4 exampleMeasure⟩

/-- A playing state with the last measure (index 3) of the four-measure
score armed. -/
def lastMeasureState : SchedState :=
  ⟨true, 90, 3, 18, some (8 / 3), selPiano⟩

/-! ## Lemmas about the pitch resolver -/

theorem matchAt_eq_none_of_tokenAt (l : List Char) (h : tokenAt l = false) :
    matchAt l = none := by
  match l with
  | [] => rfl
  | [c] =>
    simp only [matchAt]
    split <;> rfl
  | [c, a] =>
    simp only [tokenAt, Bool.and_eq_false_iff] at h
    simp only [matchAt]
    rcases h with h | h
    · simp [h]
    · split
      · simp [h]
      · rfl
  | c :: a :: d :: rest =>
    simp only [tokenAt, Bool.and_eq_false_iff, Bool.or_eq_false_iff] at h
    simp only [matchAt]
    rcases h with h | ⟨h1, h2⟩
    · simp [h]
    · rcases h1 with h1 | h1 <;> simp [h1, h2]

theorem findMatch_eq_none (l : List Char) (h : containsToken l = false) :
    findMatch l = none := by
  induction l with
  | nil => rfl
  | cons c rest ih =>
    simp only [containsToken, Bool.or_eq_false_iff] at h
    simp only [findMatch, matchAt_eq_none_of_tokenAt _ h.1]
    exact ih h.2

/-- C3: an input with no substring matching the pitch pattern resolves to
exactly 440, with a defined (non-`NaN`, non-exceptional) result. -/
theorem unparseable_pitch_resolves_to_440 (pitch : String)
    (h : containsToken pitch.data = false) :
    getFrequency pitch = some 440 := by
  simp [getFrequency, findMatch_eq_none _ h]

/-- Witness for C3 at the concrete unparseable input `"hello"`. -/
theorem unparseable_pitch_resolves_to_440_witness :
    containsToken "hello".data = false ∧ getFrequency "hello" = some 440 :=
  ⟨by decide, unparseable_pitch_resolves_to_440 "hello" (by decide)⟩

/-- C1: the source omits the `- 9` A4 reference offset, so `"A4"` resolves to
`440 * 2 ^ (9/12)` (about 739.99 Hz) instead of the 440 Hz the claim (and the
spec formula, embedded as `frequencyOfSpec`) requires. -/
theorem getFrequency_A4_code_bug :
    getFrequency "A4" = some (freqOfSemis 9) ∧
    frequencyOfSpec "A4" = some 440 ∧
    freqOfSemis 9 = 440 * (2 : ℝ) ^ ((9 : ℝ) / 12) ∧
    getFrequency "A4" ≠ some 440 := by
  have h1 : getFrequency "A4" = some (freqOfSemis 9) := rfl
  have h0 : frequencyOfSpec "A4" = some (freqOfSemis 0) := rfl
  have h2 : frequencyOfSpec "A4" = some 440 := by
    rw [h0]
    norm_num [freqOfSemis]
  have h3 : freqOfSemis 9 = 440 * (2 : ℝ) ^ ((9 : ℝ) / 12) := by
    norm_num [freqOfSemis]
  refine ⟨h1, h2, h3, ?_⟩
  rw [h1, h3]
  intro hcontra
  have hval : (440 : ℝ) * (2 : ℝ) ^ ((9 : ℝ) / 12) = 440 := by
    exact Option.some.inj hcontra
  have hgt : (1 : ℝ) < (2 : ℝ) ^ ((9 : ℝ) / 12) := by
    rw [Real.one_lt_rpow_iff_of_pos (by norm_num)]
    left
    constructor <;> norm_num
  nlinarith

theorem findMatch_letter_digit (ch : Char) (hch : isNoteLetter ch = true)
    (c : Char) (hc : isDigitChar c = true) :
    findMatch [ch, c] = some (String.mk [ch], c.toNat - 48) := by
  have hm : matchAt [ch, c] = some (String.mk [ch], c.toNat - 48) := by
    rw [matchAt, if_pos hch, if_pos hc]
  rw [findMatch, hm]

theorem findMatch_letter_acc_digit (ch a : Char) (hch : isNoteLetter ch = true)
    (ha : isAccidental a = true) (c : Char) (hc : isDigitChar c = true) :
    findMatch [ch, a, c] = some (String.mk [ch, a], c.toNat - 48) := by
  have hand : (isAccidental a && isDigitChar c) = true := by
    rw [ha, hc]
    rfl
  have hm : matchAt [ch, a, c] = some (String.mk [ch, a], c.toNat - 48) := by
    rw [matchAt, if_pos hch, if_pos hand]
  rw [findMatch, hm]

/-- Appending a digit to a note name present in the `notes` record gives a
pitch string the resolver parses into that name and the digit's value. -/
theorem findMatch_name_digit (name : String) (o : ℤ) (hname : notes name = some o)
    (c : Char) (hc : isDigitChar c = true) :
    findMatch (name ++ String.mk [c]).data = some (name, c.toNat - 48) := by
  unfold notes at hname
  by_cases h1 : name = "C"
  · subst h1
    exact findMatch_letter_digit 'C' rfl c hc
  rw [if_neg h1] at hname
  by_cases h2 : name = "C#"
  · subst h2
    exact findMatch_letter_acc_digit 'C' '#' rfl rfl c hc
  rw [if_neg h2] at hname
  by_cases h3 : name = "Db"
  · subst h3
    exact findMatch_letter_acc_digit 'D' 'b' rfl rfl c hc
  rw [if_neg h3] at hname
  by_cases h4 : name = "D"
  · subst h4
    exact findMatch_letter_digit 'D' rfl c hc
  rw [if_neg h4] at hname
  by_cases h5 : name = "D#"
  · subst h5
    exact findMatch_letter_acc_digit 'D' '#' rfl rfl c hc
  rw [if_neg h5] at hname
  by_cases h6 : name = "Eb"
  · subst h6
    exact findMatch_letter_acc_digit 'E' 'b' rfl rfl c hc
  rw [if_neg h6] at hname
  by_cases h7 : name = "E"
  · subst h7
    exact findMatch_letter_digit 'E' rfl c hc
  rw [if_neg h7] at hname
  by_cases h8 : name = "F"
  · subst h8
    exact findMatch_letter_digit 'F' rfl c hc
  rw [if_neg h8] at hname
  by_cases h9 : name = "F#"
  · subst h9
    exact findMatch_letter_acc_digit 'F' '#' rfl rfl c hc
  rw [if_neg h9] at hname
  by_cases h10 : name = "Gb"
  · subst h10
    exact findMatch_letter_acc_digit 'G' 'b' rfl rfl c hc
  rw [if_neg h10] at hname
  by_cases h11 : name = "G"
  · subst h11
    exact findMatch_letter_digit 'G' rfl c hc
  rw [if_neg h11] at hname
  by_cases h12 : name = "G#"
  · subst h12
    exact findMatch_letter_acc_digit 'G' '#' rfl rfl c hc
  rw [if_neg h12] at hname
  by_cases h13 : name = "Ab"
  · subst h13
    exact findMatch_letter_acc_digit 'A' 'b' rfl rfl c hc
  rw [if_neg h13] at hname
  by_cases h14 : name = "A"
  · subst h14
    exact findMatch_letter_digit 'A' rfl c hc
  rw [if_neg h14] at hname
  by_cases h15 : name = "A#"
  · subst h15
    exact findMatch_letter_acc_digit 'A' '#' rfl rfl c hc
  rw [if_neg h15] at hname
  by_cases h16 : name = "Bb"
  · subst h16
    exact findMatch_letter_acc_digit 'B' 'b' rfl rfl c hc
  rw [if_neg h16] at hname
  by_cases h17 : name = "B"
  · subst h17
    exact findMatch_letter_digit 'B' rfl c hc
  rw [if_neg h17] at hname
  exact Option.noConfusion hname

/-- Resolving a note name from the record with an appended octave digit
yields the source's semitone formula (without the spec's `- 9`). -/
theorem getFrequency_name_digit (name : String) (o : ℤ) (hname : notes name = some o)
    (c : Char) (hc : isDigitChar c = true) :
    getFrequency (name ++ String.mk [c]) =
      some (freqOfSemis (o + (((c.toNat - 48 : ℕ) : ℤ) - 4) * 12)) := by
  unfold getFrequency
  rw [findMatch_name_digit name o hname c hc]
  show (notes name).map _ = _
  rw [hname]
  simp

theorem freqOfSemis_strictMono (k1 k2 : ℤ) (h : k1 < k2) :
    freqOfSemis k1 < freqOfSemis k2 := by
  unfold freqOfSemis
  have hlt : ((k1 : ℝ)) / 12 < (k2 : ℝ) / 12 := by
    have : (k1 : ℝ) < (k2 : ℝ) := by exact_mod_cast h
    linarith
  have hr : (2 : ℝ) ^ ((k1 : ℝ) / 12) < (2 : ℝ) ^ ((k2 : ℝ) / 12) :=
    (Real.rpow_lt_rpow_left_iff one_lt_two).mpr hlt
  linarith

theorem freqOfSemis_add_twelve (k : ℤ) : freqOfSemis (k + 12) = 2 * freqOfSemis k := by
  unfold freqOfSemis
  have hcast : ((k + 12 : ℤ) : ℝ) / 12 = (k : ℝ) / 12 + 1 := by
    push_cast
    ring
  rw [hcast, Real.rpow_add (by norm_num) _ _, Real.rpow_one]
  ring

/-- C7: for a fixed note name from the record, the resolved frequency is
strictly increasing in the octave digit, and raising the octave by one
exactly doubles the frequency. -/
theorem octave_monotone_and_doubling (name : String) (o : ℤ) (hname : notes name = some o)
    (c1 c2 : Char) (hc1 : isDigitChar c1 = true) (hc2 : isDigitChar c2 = true)
    (hlt : c1.toNat < c2.toNat) :
    ∃ f1 f2 : ℝ,
      getFrequency (name ++ String.mk [c1]) = some f1 ∧
      getFrequency (name ++ String.mk [c2]) = some f2 ∧
      f1 < f2 ∧
      (c2.toNat = c1.toNat + 1 → f2 = 2 * f1) := by
  have h48 : 48 ≤ c1.toNat := by
    unfold isDigitChar at hc1
    simp only [Bool.and_eq_true, decide_eq_true_eq] at hc1
    exact hc1.1
  refine ⟨_, _, getFrequency_name_digit name o hname c1 hc1,
    getFrequency_name_digit name o hname c2 hc2, ?_, ?_⟩
  · apply freqOfSemis_strictMono
    have hsub : ((c1.toNat - 48 : ℕ) : ℤ) < ((c2.toNat - 48 : ℕ) : ℤ) := by omega
    linarith
  · intro hsucc
    have hoct : ((c2.toNat - 48 : ℕ) : ℤ) = ((c1.toNat - 48 : ℕ) : ℤ) + 1 := by omega
    have hk : o + (((c2.toNat - 48 : ℕ) : ℤ) - 4) * 12 =
        (o + (((c1.toNat - 48 : ℕ) : ℤ) - 4) * 12) + 12 := by
      rw [hoct]
      ring
    rw [hk, freqOfSemis_add_twelve]

/-- Witness for C7 at the pitch name "A" with octaves 4 and 5. -/
theorem octave_monotone_and_doubling_witness :
    notes "A" = some 9 ∧ isDigitChar '4' = true ∧ isDigitChar '5' = true ∧
    Char.toNat '4' < Char.toNat '5' ∧
    ∃ f1 f2 : ℝ,
      getFrequency ("A" ++ String.mk ['4']) = some f1 ∧
      getFrequency ("A" ++ String.mk ['5']) = some f2 ∧
      f1 < f2 ∧
      (Char.toNat '5' = Char.toNat '4' + 1 → f2 = 2 * f1) :=
  ⟨by decide, by decide, by decide, by decide,
    octave_monotone_and_doubling "A" 9 (by decide) '4' '5' (by decide) (by decide) (by decide)⟩

/-! ## Lemmas about the measure arranger -/

theorem melodyLoop_length (melody : List Note) (inst : InstrumentType) (bd st : ℚ) :
    ∀ off : ℚ, (melodyLoop melody inst bd st off).length = melody.length := by
  induction melody with
  | nil => intro off; rfl
  | cons n rest ih => intro off; simp [melodyLoop, ih]

theorem melodyLoop_getElem (melody : List Note) (inst : InstrumentType) (bd st : ℚ) :
    ∀ (off : ℚ) (k : ℕ) (hk : k < melody.length),
    (melodyLoop melody inst bd st off)[k]? =
      some (Event.note melody[k].pitch (melody[k].duration * bd) inst
        (st + off + (((melody.take k).map Note.duration).sum) * bd)) := by
  induction melody with
  | nil => intro off k hk; simp at hk
  | cons n rest ih =>
    intro off k hk
    cases k with
    | zero => simp [melodyLoop]
    | succ k =>
      have hk' : k < rest.length := by simpa using hk
      simp only [melodyLoop, List.getElem?_cons_succ, List.getElem_cons_succ,
        List.take_succ_cons, List.map_cons, List.sum_cons]
      rw [ih (off + n.duration * bd) k hk']
      simp only [Option.some.injEq, Event.note.injEq]
      refine ⟨trivial, trivial, trivial, by ring⟩

theorem melodyLoop_filter_true (p : Event → Bool) (inst : InstrumentType)
    (hp : ∀ pc d s, p (Event.note pc d inst s) = true) (melody : List Note) (bd st : ℚ) :
    ∀ off : ℚ, (melodyLoop melody inst bd st off).filter p = melodyLoop melody inst bd st off := by
  induction melody with
  | nil => intro off; rfl
  | cons n rest ih => intro off; simp [melodyLoop, List.filter_cons, hp, ih]

theorem melodyLoop_filter_false (p : Event → Bool) (inst : InstrumentType)
    (hp : ∀ pc d s, p (Event.note pc d inst s) = false) (melody : List Note) (bd st : ℚ) :
    ∀ off : ℚ, (melodyLoop melody inst bd st off).filter p = [] := by
  induction melody with
  | nil => intro off; rfl
  | cons n rest ih => intro off; simp [melodyLoop, List.filter_cons, hp, ih]

theorem bassLoop_length (chords : List String) (cd st : ℚ) :
    ∀ i : ℕ, (bassLoop chords cd st i).length = chords.length := by
  induction chords with
  | nil => intro i; rfl
  | cons c rest ih => intro i; simp [bassLoop, ih]

theorem bassLoop_getElem (chords : List String) (cd st : ℚ) :
    ∀ (i k : ℕ) (hk : k < chords.length),
    (bassLoop chords cd st i)[k]? =
      some (Event.note (String.mk (chords[k].data.take 1) ++ "2") cd InstrumentType.bass
        (st + ((i + k : ℕ) : ℚ) * cd)) := by
  induction chords with
  | nil => intro i k hk; simp at hk
  | cons c rest ih =>
    intro i k hk
    cases k with
    | zero => simp [bassLoop]
    | succ k =>
      have hk' : k < rest.length := by simpa using hk
      simp only [bassLoop, List.getElem?_cons_succ, List.getElem_cons_succ]
      rw [ih (i + 1) k hk']
      simp only [Option.some.injEq, Event.note.injEq]
      refine ⟨trivial, trivial, trivial, ?_⟩
      have h : i + 1 + k = i + (k + 1) := by omega
      rw [h]

theorem bassLoop_filter_true (p : Event → Bool)
    (hp : ∀ pc d s, p (Event.note pc d InstrumentType.bass s) = true)
    (chords : List String) (cd st : ℚ) :
    ∀ i : ℕ, (bassLoop chords cd st i).filter p = bassLoop chords cd st i := by
  induction chords with
  | nil => intro i; rfl
  | cons c rest ih => intro i; simp [bassLoop, List.filter_cons, hp, ih]

theorem bassLoop_filter_false (p : Event → Bool)
    (hp : ∀ pc d s, p (Event.note pc d InstrumentType.bass s) = false)
    (chords : List String) (cd st : ℚ) :
    ∀ i : ℕ, (bassLoop chords cd st i).filter p = [] := by
  induction chords with
  | nil => intro i; rfl
  | cons c rest ih => intro i; simp [bassLoop, List.filter_cons, hp, ih]

theorem bassLoop_map_eventDur (chords : List String) (cd st : ℚ) :
    ∀ i : ℕ, (bassLoop chords cd st i).map eventDur = List.replicate chords.length cd := by
  induction chords with
  | nil => intro i; rfl
  | cons c rest ih => intro i; simp [bassLoop, eventDur, ih, List.replicate_succ]

theorem drumEvents_filter_note (bd st : ℚ) (p : Event → Bool)
    (hp : ∀ v s, p (Event.drum v s) = false) :
    (drumEvents bd st).filter p = [] := by
  simp [drumEvents, List.range_succ, List.filter_append, List.filter_cons, hp]

/-- Filtering the arranger's events by a predicate that rejects vocal events
splits into the three instrument sections. -/
theorem filter_playMeasure (m : Measure) (tempo : ℚ) (sel : InstrumentType → Bool)
    (vocal : Option String) (st : ℚ) (p : Event → Bool)
    (hv : ∀ pay s, p (Event.vocal pay s) = false) :
    (playMeasure m tempo sel vocal st).filter p =
      (if sel InstrumentType.piano || sel InstrumentType.guitar then
        (melodyLoop m.melody
          (if sel InstrumentType.piano then InstrumentType.piano else InstrumentType.guitar)
          (60 / tempo) st 0).filter p
      else []) ++
      (if sel InstrumentType.bass && decide (0 < m.chords.length) then
        (bassEvents m.chords (60 / tempo) st).filter p
      else []) ++
      (if sel InstrumentType.drums then (drumEvents (60 / tempo) st).filter p else []) := by
  unfold playMeasure
  simp only [List.filter_append, apply_ite (List.filter p), List.filter_nil]
  have hvocal : (match vocal with
      | some q =>
        if !q.isEmpty && (sel InstrumentType.maleVocal || sel InstrumentType.femaleVocal) then
          [Event.vocal q st]
        else []
      | none => ([] : List Event)).filter p = [] := by
    cases vocal with
    | none => rfl
    | some q =>
      simp only []
      split
      · simp [List.filter_cons, hv]
      · rfl
  rw [hvocal]
  simp

/-- Under a selected melody track, the melody-track tones of the arranger are
exactly the melody walk's events. -/
theorem melodyTones_playMeasure (m : Measure) (tempo : ℚ) (sel : InstrumentType → Bool)
    (vocal : Option String) (st : ℚ)
    (hsel : (sel InstrumentType.piano || sel InstrumentType.guitar) = true) :
    melodyTones (playMeasure m tempo sel vocal st) =
      melodyLoop m.melody
        (if sel InstrumentType.piano then InstrumentType.piano else InstrumentType.guitar)
        (60 / tempo) st 0 := by
  rw [melodyTones, filter_playMeasure m tempo sel vocal st isMelodyTone (by intro pay s; rfl)]
  rw [if_pos hsel]
  rw [melodyLoop_filter_true isMelodyTone _
    (by intro pc d s; by_cases h : sel InstrumentType.piano <;> simp [h, isMelodyTone])
    m.melody (60 / tempo) st 0]
  have hb : (bassEvents m.chords (60 / tempo) st).filter isMelodyTone = [] :=
    bassLoop_filter_false isMelodyTone (fun pc d s => rfl) m.chords
      ((4 * (60 / tempo)) / (m.chords.length : ℚ)) st 0
  rw [hb, drumEvents_filter_note (60 / tempo) st isMelodyTone (by intro v s; rfl)]
  simp

/-- Under a selected bass track and a non-empty chord list, the bass-track
tones of the arranger are exactly the bass walk's events. -/
theorem bassTones_playMeasure (m : Measure) (tempo : ℚ) (sel : InstrumentType → Bool)
    (vocal : Option String) (st : ℚ)
    (hsel : sel InstrumentType.bass = true) (hch : m.chords ≠ []) :
    bassTones (playMeasure m tempo sel vocal st) =
      bassLoop m.chords ((4 * (60 / tempo)) / (m.chords.length : ℚ)) st 0 := by
  rw [bassTones, filter_playMeasure m tempo sel vocal st isBassTone (by intro pay s; rfl)]
  have hcond : (sel InstrumentType.bass && decide (0 < m.chords.length)) = true := by
    have : 0 < m.chords.length := List.length_pos.mpr hch
    simp [hsel, this]
  rw [if_pos hcond]
  have hb : (bassEvents m.chords (60 / tempo) st).filter isBassTone =
      bassLoop m.chords ((4 * (60 / tempo)) / (m.chords.length : ℚ)) st 0 :=
    bassLoop_filter_true isBassTone (fun pc d s => rfl) m.chords
      ((4 * (60 / tempo)) / (m.chords.length : ℚ)) st 0
  rw [hb, drumEvents_filter_note (60 / tempo) st isBassTone (by intro v s; rfl)]
  have hmel : (if sel InstrumentType.piano || sel InstrumentType.guitar then
      (melodyLoop m.melody
        (if sel InstrumentType.piano then InstrumentType.piano else InstrumentType.guitar)
        (60 / tempo) st 0).filter isBassTone
    else []) = [] := by
    split
    · by_cases h : sel InstrumentType.piano = true
      · simp only [h, if_true]
        exact melodyLoop_filter_false isBassTone InstrumentType.piano
          (fun pc d s => rfl) _ _ _ 0
      · simp only [h, if_false]
        exact melodyLoop_filter_false isBassTone InstrumentType.guitar
          (fun pc d s => rfl) _ _ _ 0
    · rfl
  rw [hmel]
  simp

/-- Under selected drums, the percussion hits of the given voice among the
arranger's events are those of the fixed drum pattern. -/
theorem drumFilter_playMeasure (m : Measure) (tempo : ℚ) (sel : InstrumentType → Bool)
    (vocal : Option String) (st : ℚ) (v : DrumVoice)
    (hsel : sel InstrumentType.drums = true) :
    (playMeasure m tempo sel vocal st).filter (isDrumVoice v) =
      (drumEvents (60 / tempo) st).filter (isDrumVoice v) := by
  rw [filter_playMeasure m tempo sel vocal st (isDrumVoice v) (by intro pay s; rfl)]
  rw [if_pos hsel]
  have hmel : (if sel InstrumentType.piano || sel InstrumentType.guitar then
      (melodyLoop m.melody
        (if sel InstrumentType.piano then InstrumentType.piano else InstrumentType.guitar)
        (60 / tempo) st 0).filter (isDrumVoice v)
    else []) = [] := by
    split
    · by_cases h : sel InstrumentType.piano = true
      · simp only [h, if_true]
        exact melodyLoop_filter_false (isDrumVoice v) InstrumentType.piano
          (fun pc d s => rfl) _ _ _ 0
      · simp only [h, if_false]
        exact melodyLoop_filter_false (isDrumVoice v) InstrumentType.guitar
          (fun pc d s => rfl) _ _ _ 0
    · rfl
  have hb : (if sel InstrumentType.bass && decide (0 < m.chords.length) then
      (bassEvents m.chords (60 / tempo) st).filter (isDrumVoice v)
    else []) = [] := by
    split
    · exact bassLoop_filter_false (isDrumVoice v) (fun pc d s => rfl) m.chords
        ((4 * (60 / tempo)) / (m.chords.length : ℚ)) st 0
    · rfl
  rw [hmel, hb]
  simp

/-- C4: with piano or guitar selected, the arranger schedules one tone per
melody note; the k-th tone's start is the measure start plus the sum of the
durations of notes 0..k-1 times `beatSeconds = 60 / tempo`, its scheduled
duration is `note.duration * beatSeconds`, and consecutive tones abut exactly
(the next starts where the previous ends — no overlap and no clamping to the
4-beat boundary). -/
theorem melody_track_schedule (m : Measure) (tempo : ℚ) (sel : InstrumentType → Bool)
    (vocal : Option String) (st : ℚ)
    (hsel : (sel InstrumentType.piano || sel InstrumentType.guitar) = true)
    (htempo : 0 < tempo) :
    (melodyTones (playMeasure m tempo sel vocal st)).length = m.melody.length ∧
    (∀ k, (hk : k < m.melody.length) →
      (melodyTones (playMeasure m tempo sel vocal st))[k]? =
        some (Event.note m.melody[k].pitch (m.melody[k].duration * (60 / tempo))
          (if sel InstrumentType.piano then InstrumentType.piano else InstrumentType.guitar)
          (st + (((m.melody.take k).map Note.duration).sum) * (60 / tempo)))) ∧
    (∀ k, k + 1 < m.melody.length →
      ∃ e1 e2, (melodyTones (playMeasure m tempo sel vocal st))[k]? = some e1 ∧
        (melodyTones (playMeasure m tempo sel vocal st))[k + 1]? = some e2 ∧
        eventStart e2 = eventStart e1 + eventDur e1) := by
  rw [melodyTones_playMeasure m tempo sel vocal st hsel]
  set inst := if sel InstrumentType.piano then InstrumentType.piano else InstrumentType.guitar
  refine ⟨melodyLoop_length m.melody inst (60 / tempo) st 0, ?_, ?_⟩
  · intro k hk
    rw [melodyLoop_getElem m.melody inst (60 / tempo) st 0 k hk]
    simp only [Option.some.injEq, Event.note.injEq]
    refine ⟨trivial, trivial, trivial, by ring⟩
  · intro k hk
    have hk1 : k < m.melody.length := by omega
    refine ⟨_, _, melodyLoop_getElem m.melody inst (60 / tempo) st 0 k hk1,
      melodyLoop_getElem m.melody inst (60 / tempo) st 0 (k + 1) hk, ?_⟩
    have hsum : ((m.melody.take (k + 1)).map Note.duration).sum =
        ((m.melody.take k).map Note.duration).sum + m.melody[k].duration := by
      rw [List.take_succ, List.getElem?_eq_getElem hk1]
      simp only [Option.toList_some, List.map_append, List.map_cons, List.map_nil,
        List.sum_append, List.sum_cons, List.sum_nil, add_zero]
    simp only [eventStart, eventDur]
    rw [hsum]
    ring

/-- Witness for C4 at the spec's scenario: tempo 120, melody C4:1, E4:1,
G4:2, piano selected; three tones result, and the second starts at 0.5 s with
duration 0.5 s. -/
theorem melody_track_schedule_witness :
    ((selPiano InstrumentType.piano || selPiano InstrumentType.guitar) = true) ∧
    (0 : ℚ) < 120 ∧
    (melodyTones (playMeasure exampleMeasure 120 selPiano none 0)).length = 3 ∧
    (melodyTones (playMeasure exampleMeasure 120 selPiano none 0))[1]? =
      some (Event.note "E4" (1 / 2) InstrumentType.piano (1 / 2)) := by
  have h := melody_track_schedule exampleMeasure 120 selPiano none 0 (by decide) (by norm_num)
  refine ⟨by decide, by norm_num, ?_, ?_⟩
  · simpa [exampleMeasure, exampleMelody] using h.1
  · have h2 := h.2.1 1 (by simp [exampleMeasure, exampleMelody])
    rw [h2]
    norm_num [exampleMeasure, exampleMelody, selPiano]

/-- C5: with bass selected and a non-empty chord list of length N, the
arranger emits exactly N bass tones, each of duration
`(4 * beatSeconds) / N`, the i-th starting `i` slot-durations after the
measure start, with pitch the chord's first character followed by octave
digit 2; the N slot durations sum to `4 * beatSeconds`. -/
theorem bass_track_schedule (m : Measure) (tempo : ℚ) (sel : InstrumentType → Bool)
    (vocal : Option String) (st : ℚ)
    (hsel : sel InstrumentType.bass = true) (hch : m.chords ≠ []) :
    (bassTones (playMeasure m tempo sel vocal st)).length = m.chords.length ∧
    (∀ k, (hk : k < m.chords.length) →
      (bassTones (playMeasure m tempo sel vocal st))[k]? =
        some (Event.note (String.mk (m.chords[k].data.take 1) ++ "2")
          ((4 * (60 / tempo)) / (m.chords.length : ℚ)) InstrumentType.bass
          (st + (k : ℚ) * ((4 * (60 / tempo)) / (m.chords.length : ℚ))))) ∧
    ((bassTones (playMeasure m tempo sel vocal st)).map eventDur).sum = 4 * (60 / tempo) := by
  rw [bassTones_playMeasure m tempo sel vocal st hsel hch]
  refine ⟨bassLoop_length m.chords _ st 0, ?_, ?_⟩
  · intro k hk
    rw [bassLoop_getElem m.chords _ st 0 k hk]
    simp
  · rw [bassLoop_map_eventDur m.chords _ st 0]
    rw [List.sum_replicate, nsmul_eq_mul]
    have hn : (m.chords.length : ℚ) ≠ 0 := by
      have : 0 < m.chords.length := List.length_pos.mpr hch
      exact_mod_cast Nat.pos_iff_ne_zero.mp this
    rw [mul_comm]
    exact div_mul_cancel₀ _ hn

/-- Witness for C5: two chords at tempo 120 and bass selected give two bass
tones of one second each, "C2" at 0 s and "G2" at 1 s, summing to 2 s. -/
theorem bass_track_schedule_witness :
    selBass InstrumentType.bass = true ∧ exampleMeasure.chords ≠ [] ∧
    (bassTones (playMeasure exampleMeasure 120 selBass none 0)).length = 2 ∧
    (bassTones (playMeasure exampleMeasure 120 selBass none 0))[1]? =
      some (Event.note "G2" 1 InstrumentType.bass 1) ∧
    ((bassTones (playMeasure exampleMeasure 120 selBass none 0)).map eventDur).sum = 2 := by
  have h := bass_track_schedule exampleMeasure 120 selBass none 0 (by decide) (by decide)
  refine ⟨by decide, by decide, ?_, ?_, ?_⟩
  · simpa [exampleMeasure] using h.1
  · have h2 := h.2.1 1 (by simp [exampleMeasure])
    rw [h2]
    norm_num [exampleMeasure]
    rfl
  · have h3 := h.2.2
    rw [h3]
    norm_num

/-- C6: with drums selected the arranger emits, independently of the
measure's `drumGroove` field, exactly 8 hi-hat hits at every half beat,
2 kicks on beats 1 and 3, and 2 snares on beats 2 and 4. -/
theorem drum_track_schedule (m : Measure) (tempo : ℚ) (sel : InstrumentType → Bool)
    (vocal : Option String) (st : ℚ)
    (hsel : sel InstrumentType.drums = true) :
    ((playMeasure m tempo sel vocal st).filter (isDrumVoice DrumVoice.hihat)).map eventStart =
      (List.range 8).map (fun k => st + (k : ℚ) * ((0.5 : ℚ) * (60 / tempo))) ∧
    ((playMeasure m tempo sel vocal st).filter (isDrumVoice DrumVoice.kick)).map eventStart =
      [st, st + 2 * (60 / tempo)] ∧
    ((playMeasure m tempo sel vocal st).filter (isDrumVoice DrumVoice.snare)).map eventStart =
      [st + 1 * (60 / tempo), st + 3 * (60 / tempo)] ∧
    ((playMeasure m tempo sel vocal st).filter (isDrumVoice DrumVoice.hihat)).length = 8 ∧
    ((playMeasure m tempo sel vocal st).filter (isDrumVoice DrumVoice.kick)).length = 2 ∧
    ((playMeasure m tempo sel vocal st).filter (isDrumVoice DrumVoice.snare)).length = 2 ∧
    (∀ g v, ((playMeasure (Measure.mk m.chords m.melody g) tempo sel vocal st).filter
        (isDrumVoice v)) =
      ((playMeasure m tempo sel vocal st).filter (isDrumVoice v))) := by
  have hh := drumFilter_playMeasure m tempo sel vocal st DrumVoice.hihat hsel
  have hk := drumFilter_playMeasure m tempo sel vocal st DrumVoice.kick hsel
  have hs := drumFilter_playMeasure m tempo sel vocal st DrumVoice.snare hsel
  refine ⟨?_, ?_, ?_, ?_, ?_, ?_, ?_⟩
  · rw [hh]
    simp [drumEvents, List.range_succ, List.filter_append, List.filter_cons, isDrumVoice,
      eventStart]
    norm_num
    exact ⟨by ring, by ring, by ring, by ring, by ring, by ring⟩
  · rw [hk]
    simp [drumEvents, List.range_succ, List.filter_append, List.filter_cons, isDrumVoice,
      eventStart]
  · rw [hs]
    simp [drumEvents, List.range_succ, List.filter_append, List.filter_cons, isDrumVoice,
      eventStart]
  · rw [hh]; rfl
  · rw [hk]; rfl
  · rw [hs]; rfl
  · intro g v
    rw [drumFilter_playMeasure m tempo sel vocal st v hsel,
      drumFilter_playMeasure (Measure.mk m.chords m.melody g) tempo sel vocal st v hsel]

/-- Witness for C6 at tempo 120, drums selected: hi-hats every quarter
second, kicks at 0 s and 1 s, snares at 0.5 s and 1.5 s. -/
theorem drum_track_schedule_witness :
    selDrums InstrumentType.drums = true ∧
    ((playMeasure exampleMeasure 120 selDrums none 0).filter
        (isDrumVoice DrumVoice.hihat)).length = 8 ∧
    ((playMeasure exampleMeasure 120 selDrums none 0).filter
        (isDrumVoice DrumVoice.kick)).map eventStart = [0, 1] := by
  have h := drum_track_schedule exampleMeasure 120 selDrums none 0 (by decide)
  refine ⟨by decide, h.2.2.2.1, ?_⟩
  have h2 := h.2.1
  rw [h2]
  norm_num

/-! ## Scheduler theorems -/

/-- C2 fails on the code: `tempo` is in the playback effect's dependency
array, so changing the tempo from 90 to 120 while measure index 1 is armed
cancels the pending 90-bpm timer (8/3 s), re-issues the armed measure's
events with 120-bpm durations at the unchanged anchor, and re-arms the
advance timer with the 120-bpm duration (2 s).  The armed measure is
therefore altered, contrary to the claim. -/
theorem tempo_change_rearms_armed_measure :
    (effectRun exampleScore noVocals 11 (setTempoUser 120 armedState)).1.armed = some 2 ∧
    armedState.armed = some (8 / 3) ∧
    (2 : ℚ) ≠ 8 / 3 ∧
    (effectRun exampleScore noVocals 11 (setTempoUser 120 armedState)).2 =
      playMeasure exampleMeasure 120 selPiano none 10 ∧
    (melodyTones (playMeasure exampleMeasure 120 selPiano none 10))[0]? =
      some (Event.note "C4" (1 / 2) InstrumentType.piano 10) ∧
    playMeasure exampleMeasure 120 selPiano none 10 ≠ [] := by
  have hmel : melodyTones (playMeasure exampleMeasure 120 selPiano none 10) =
      melodyLoop exampleMeasure.melody InstrumentType.piano (60 / 120) 10 0 := by
    rw [melodyTones_playMeasure exampleMeasure 120 selPiano none 10 (by decide)]
    norm_num [selPiano]
  refine ⟨?_, rfl, by norm_num, ?_, ?_, ?_⟩
  · norm_num [effectRun, setTempoUser, armedState]
  · norm_num [effectRun, setTempoUser, armedState, exampleScore, noVocals,
      List.getElem?_replicate]
  · rw [hmel, melodyLoop_getElem exampleMeasure.melody InstrumentType.piano (60 / 120) 10 0 0
      (by decide)]
    norm_num [exampleMeasure, exampleMelody]
  · intro hnil
    have hlen : (melodyTones (playMeasure exampleMeasure 120 selPiano none 10)).length = 3 := by
      rw [hmel, melodyLoop_length]
      rfl
    rw [melodyTones, hnil] at hlen
    simp at hlen

/-- C8: when the advance timer fires on the last measure (the next index
would equal the measure count), playback transitions to stopped and the
measure index resets to 0. -/
theorem advance_past_last_measure_stops (score : ScoreData) (s : SchedState) (md : ℚ)
    (harmed : s.armed = some md)
    (hlast : s.currentMeasureIndex + 1 = score.measures.length) :
    (timerFire score s).isPlaying = false ∧
    (timerFire score s).currentMeasureIndex = 0 := by
  unfold timerFire
  rw [harmed]
  simp [hlast]

/-- Witness for C8: a four-measure score with index 3 armed stops and
resets to 0 when the timer fires. -/
theorem advance_past_last_measure_stops_witness :
    lastMeasureState.armed = some (8 / 3) ∧
    lastMeasureState.currentMeasureIndex + 1 = exampleScore4.measures.length ∧
    (timerFire exampleScore4 lastMeasureState).isPlaying = false ∧
    (timerFire exampleScore4 lastMeasureState).currentMeasureIndex = 0 := by
  have h := advance_past_last_measure_stops exampleScore4 lastMeasureState (8 / 3) rfl
    (by decide)
  exact ⟨rfl, by decide, h.1, h.2⟩

/-! ## Tempo clamp theorems -/

theorem applyTempoOps_bounds :
    ∀ (ops : List Bool) (t : ℚ), 40 ≤ t → t ≤ 240 →
      40 ≤ applyTempoOps t ops ∧ applyTempoOps t ops ≤ 240 := by
  intro ops
  induction ops with
  | nil => intro t h1 h2; exact ⟨h1, h2⟩
  | cons op ops ih =>
    intro t h1 h2
    show 40 ≤ applyTempoOps (if op then tempoIncrement t else tempoDecrement t) ops ∧ _
    cases op with
    | false =>
      refine ih (tempoDecrement t) (le_max_left _ _) (max_le (by norm_num) (by linarith))
    | true =>
      refine ih (tempoIncrement t) (le_min (by norm_num) (by linarith)) (min_le_left _ _)

/-- C10: under the exposed tempo buttons, a decrement yields
`max 40 (t - 5)`, an increment yields `min 240 (t + 5)`, and starting from
any tempo in [40, 240] the tempo stays in [40, 240] under every sequence of
button presses. -/
theorem tempo_clamped (t : ℚ) (h40 : 40 ≤ t) (h240 : t ≤ 240) :
    tempoDecrement t = max 40 (t - 5) ∧
    tempoIncrement t = min 240 (t + 5) ∧
    40 ≤ tempoDecrement t ∧ tempoDecrement t ≤ 240 ∧
    40 ≤ tempoIncrement t ∧ tempoIncrement t ≤ 240 ∧
    ∀ ops : List Bool, 40 ≤ applyTempoOps t ops ∧ applyTempoOps t ops ≤ 240 := by
  refine ⟨rfl, rfl, le_max_left _ _, max_le (by norm_num) (by linarith),
    le_min (by norm_num) (by linarith), min_le_left _ _, fun ops => applyTempoOps_bounds ops t h40 h240⟩

/-- Witness for C10 at tempo 90 with presses minus, minus, plus. -/
theorem tempo_clamped_witness :
    (40 : ℚ) ≤ 90 ∧ (90 : ℚ) ≤ 240 ∧
    tempoDecrement 90 = 85 ∧
    40 ≤ applyTempoOps 90 [false, false, true] ∧
    applyTempoOps 90 [false, false, true] ≤ 240 := by
  have h := tempo_clamped 90 (by norm_num) (by norm_num)
  refine ⟨by norm_num, by norm_num, ?_,
    (h.2.2.2.2.2.2 [false, false, true]).1, (h.2.2.2.2.2.2 [false, false, true]).2⟩
  rw [h.1]
  rw [max_eq_right (by norm_num : (40 : ℚ) ≤ 90 - 5)]
  norm_num

/-! ## Vocal playback adapter theorems -/

/-- C9 fails on the code: `atob` runs outside the `try`/`catch`, so the
payload `"%%%%"` (not valid base64) makes `playVocalBuffer` reject with an
uncaught error even when the audio codec itself would accept anything. -/
theorem invalid_base64_payload_rejects :
    playVocalBuffer (fun _ => true) "%%%%" 0 = Except.error () := rfl

/-- C9 amended: for every payload whose base64 decode succeeds, the call
never rejects — a codec failure is caught and degrades to the logged
warning (silence), and a codec success schedules the buffer. -/
theorem valid_base64_never_rejects (decodeOk : List ℕ → Bool) (payload : String)
    (bytes : List ℕ) (hdecode : atobModel payload = some bytes) (start : ℚ) :
    playVocalBuffer decodeOk payload start =
      (if decodeOk bytes then Except.ok (VocalOutcome.scheduled start)
       else Except.ok VocalOutcome.warned) ∧
    ∃ o, playVocalBuffer decodeOk payload start = Except.ok o := by
  have key : playVocalBuffer decodeOk payload start =
      (if decodeOk bytes then Except.ok (VocalOutcome.scheduled start)
       else Except.ok VocalOutcome.warned) := by
    unfold playVocalBuffer
    rw [hdecode]
  refine ⟨key, ?_⟩
  rw [key]
  by_cases h : decodeOk bytes
  · rw [if_pos h]
    exact ⟨_, rfl⟩
  · rw [if_neg h]
    exact ⟨_, rfl⟩

/-- Witness for the amended C9 at the valid payload `"QUJD"` (decoding to
bytes 65, 66, 67) with a codec that rejects everything: the call warns
instead of rejecting. -/
theorem valid_base64_never_rejects_witness :
    atobModel "QUJD" = some [65, 66, 67] ∧
    playVocalBuffer (fun _ => false) "QUJD" 0 = Except.ok VocalOutcome.warned ∧
    ∃ o, playVocalBuffer (fun _ => false) "QUJD" 0 = Except.ok o := by
  have h := valid_base64_never_rejects (fun _ => false) "QUJD" [65, 66, 67] (by decide) 0
  exact ⟨by decide, by simpa using h.1, h.2⟩

end FastScan
